import Mathlib

/-!
Verification of the chatroom server core (`Server.py` in the
"Local Chatroom CLI App using Python sockets + threading" directory).

The server keeps a global dictionary `clients = {client_socket: nickname}`;
we model it as an insertion-ordered association list (CPython dicts preserve
insertion order; assigning to an existing key keeps its position, assigning a
fresh key appends, and `del` preserves the order of the rest).  Sockets are
identified by natural numbers, and the success or failure of `socket.send`
on each connection is an input parameter `sendOk : Nat → Bool` of every
operation.  All client-visible effects (successful and failed sends, socket
closes, registry mutations, the blocking nickname read and the thread spawn
in the accept loop) are recorded in an event trace so that ordering
properties can be stated.

One point of CPython semantics matters to `broadcast`: the source iterates
`for client in clients:` and, inside the loop, a failed send triggers
`remove_client(client)`, which executes `del clients[client]`.  Deleting a
key changes the dictionary size while its iterator is live, so the very next
call to the iterator raises `RuntimeError("dictionary changed size during
iteration")` (the size check precedes the exhaustion check, so this happens
even when the failing client was the last key).  We model this with an error
outcome `PyErr.runtimeError` that aborts the remainder of the iteration.
-/

namespace Chat

/-- Client-visible effects of the server, in the order they happen.
`sent c m` is a successful `c.send(m)`, `sendFailed c m` a raising one;
`closedConn c` is `c.close()`; `removed c` is a call of `remove_client`;
`renamed` is the registry assignment `clients[client] = new_name` in the
rename branch and `registered` the one in the accept loop; `recvNick` is the
blocking `client.recv` for the nickname in the accept loop and
`spawnedHandler` the `threading.Thread(...).start()` there. -/
inductive Event : Type where
  | sent (c : Nat) (m : String)
  | sendFailed (c : Nat) (m : String)
  | closedConn (c : Nat)
  | removed (c : Nat)
  | renamed (c : Nat) (n : String)
  | registered (c : Nat) (n : String)
  | accepted (c : Nat)
  | recvNick (c : Nat) (n : String)
  | spawnedHandler (c : Nat)
deriving DecidableEq

/-- Python exceptions that escape a modelled operation uncaught:
`runtimeError` is the `RuntimeError` raised by a dict iterator after the
dict changed size, `sendError` an uncaught `socket.send` failure. -/
inductive PyErr : Type where
  | runtimeError
  | sendError
deriving DecidableEq

/-- Whether the `while True` read loop of `handle_client` goes on to the
next `recv` (`next`) or leaves via `break` (`stop`). -/
inductive LoopAction : Type where
  | next
  | stop
deriving DecidableEq

/-- The server state: the `clients` dictionary as an insertion-ordered
association list from socket id to nickname, plus the trace of events
emitted so far. -/
structure ServerState : Type where
  clients : List (Nat × String)
  events : List Event
deriving DecidableEq

/-- Append one event to the trace. -/
def ServerState.log (st : ServerState) (e : Event) : ServerState :=
  { st with events := st.events ++ [e] }

/-- Model of `remove_client(client)`: prints a disconnect line (recorded as
`Event.removed`) and executes `del clients[client]` guarded by
`if client in clients` — on an association list with unique keys this is
exactly the order-preserving filter. -/
def remove_client (c : Nat) (st : ServerState) : ServerState :=
  { clients := st.clients.filter (fun p => decide (p.1 ≠ c)),
    events := st.events ++ [Event.removed c] }

/-- Dictionary assignment `clients[c] = n`: replace in place when the key is
present (keeping its position), append otherwise. -/
def setNick (c : Nat) (n : String) (reg : List (Nat × String)) :
    List (Nat × String) :=
  if reg.any (fun p => decide (p.1 = c)) then
    reg.map (fun p => if p.1 = c then (c, n) else p)
  else
    reg ++ [(c, n)]

/-- Dictionary lookup `clients[c]`, `none` when the key is absent
(a `KeyError` in Python). -/
def lookupNick (st : ServerState) (c : Nat) : Option String :=
  (st.clients.find? (fun p => decide (p.1 = c))).map (fun p => p.2)

/-- Helper for Python's `s.split(" ", 1)` on the character list: `none`
when `s` has no space, otherwise the characters before and after the first
space. -/
def splitOnceChars : List Char → Option (List Char × List Char)
  | [] => none
  | c :: rest =>
    if c = ' ' then some ([], rest)
    else
      match splitOnceChars rest with
      | none => none
      | some (pre, post) => some (c :: pre, post)

/-- Python's `msg.split(" ", 1)`: the part before the first space, and the
untouched remainder when a space exists (`["/rename", ""]` for
`"/rename "`, just `["/rename"]` for `"/rename"`). -/
def splitOnce (s : String) : String × Option String :=
  match splitOnceChars s.data with
  | none => (s, none)
  | some (pre, post) => (⟨pre⟩, some ⟨post⟩)

/-- Python's `s.strip()` with no argument: drop leading and trailing
whitespace (the whitespace classes beyond space/tab/CR/LF that Python also
strips cannot occur in the lines considered here). -/
def pyStrip (s : String) : String :=
  ⟨((s.data.dropWhile Char.isWhitespace).reverse.dropWhile
    Char.isWhitespace).reverse⟩

/-- Python's `msg.startswith("/")` for a one-character prefix. -/
def startsWithChar (s : String) (c : Char) : Bool :=
  match s.data with
  | [] => false
  | d :: _ => d = c

/-- Python's `sep.join(parts)`. -/
def pyJoin (sep : String) : List String → String
  | [] => ""
  | [x] => x
  | x :: rest => x ++ sep ++ pyJoin sep rest

/-- The loop body of `broadcast` over the (snapshot of the) key list `l` of
the live dictionary.  A client equal to `sender` is skipped; a successful
send is recorded; a failing send is caught by the `except` clause, which
closes the socket and calls `remove_client` — and since that deletes a key
of the dictionary being iterated, the next step of the iterator raises
`RuntimeError`, so the rest of `l` is never visited. -/
def broadcastFrom (sendOk : Nat → Bool) (message : String)
    (sender : Option Nat) : List Nat → ServerState → ServerState × Option PyErr
  | [], st => (st, none)
  | c :: rest, st =>
    if sender = some c then
      broadcastFrom sendOk message sender rest st
    else if sendOk c then
      broadcastFrom sendOk message sender rest (st.log (Event.sent c message))
    else
      (remove_client c
        ((st.log (Event.sendFailed c message)).log (Event.closedConn c)),
       some PyErr.runtimeError)

/-- Model of `broadcast(message, sender)`: iterate the client dictionary's keys. -/
def broadcast (sendOk : Nat → Bool) (message : String) (sender : Option Nat)
    (st : ServerState) : ServerState × Option PyErr :=
  broadcastFrom sendOk message sender (st.clients.map (fun p => p.1)) st

/-- The `except` clause of `handle_client`'s read loop:
`client.close(); remove_client(client)` (followed by `break`). -/
def teardown (c : Nat) (st : ServerState) : ServerState :=
  remove_client c (st.log (Event.closedConn c))

/-- One iteration of the `while True` read loop of `handle_client`, given
the decoded data `msg` that `client.recv` returned (the raising-`recv` case
is not modelled; it takes the same `except` path as any other exception).
Mirrors the source line by line: empty data breaks out with no cleanup; the
`clients[client]` lookup raises `KeyError` when the client is gone (caught
by `except`: close, remove, break); a `/`-prefixed line is split with
`split(" ", 1)` and dispatched to `/list`, `/rename`, `/kick`, `/quit`
(an unrecognized command falls through to `continue`); any other line is
broadcast as `"<nickname>: <msg>"` excluding the sender.  Every raising
`send`, and a `RuntimeError` escaping `broadcast`, is caught by the same
`except` clause: close the handler's own client, remove it, break. -/
def handle_client_step (sendOk : Nat → Bool) (client : Nat) (msg : String)
    (st : ServerState) : ServerState × LoopAction :=
  if msg = "" then (st, LoopAction.stop)
  else
    match lookupNick st client with
    | none => (teardown client st, LoopAction.stop)
    | some nickname =>
      if startsWithChar msg '/' then
        match splitOnce msg with
        | (command, restOpt) =>
          if command = "/list" then
            let reply := "[SERVER] Connected users: " ++
              pyJoin ", " (st.clients.map (fun p => p.2))
            if sendOk client then
              (st.log (Event.sent client reply), LoopAction.next)
            else
              (teardown client (st.log (Event.sendFailed client reply)),
               LoopAction.stop)
          else if command = "/rename" then
            match restOpt with
            | none =>
              if sendOk client then
                (st.log (Event.sent client "[SERVER] Usage: /rename new_name"),
                 LoopAction.next)
              else
                (teardown client
                  (st.log (Event.sendFailed client
                    "[SERVER] Usage: /rename new_name")), LoopAction.stop)
            | some rest =>
              let newName := pyStrip rest
              match broadcast sendOk
                  ("[SERVER] " ++ nickname ++ " renamed to " ++ newName)
                  none st with
              | (st1, some _) => (teardown client st1, LoopAction.stop)
              | (st1, none) =>
                let st2 : ServerState :=
                  { clients := setNick client newName st1.clients,
                    events := st1.events ++ [Event.renamed client newName] }
                if sendOk client then
                  (st2.log (Event.sent client
                    ("[SERVER] You are now " ++ newName)), LoopAction.next)
                else
                  (teardown client (st2.log (Event.sendFailed client
                    ("[SERVER] You are now " ++ newName))), LoopAction.stop)
          else if command = "/kick" then
            match restOpt.map pyStrip with
            | none =>
              if sendOk client then
                (st.log (Event.sent client "[SERVER] User not found."),
                 LoopAction.next)
              else
                (teardown client
                  (st.log (Event.sendFailed client "[SERVER] User not found.")),
                 LoopAction.stop)
            | some targetName =>
              match st.clients.find? (fun p => decide (p.2 = targetName)) with
              | none =>
                if sendOk client then
                  (st.log (Event.sent client "[SERVER] User not found."),
                   LoopAction.next)
                else
                  (teardown client
                    (st.log (Event.sendFailed client
                      "[SERVER] User not found.")), LoopAction.stop)
              | some kicked =>
                if sendOk kicked.1 then
                  let st2 := remove_client kicked.1
                    ((st.log (Event.sent kicked.1
                      "[SERVER] You have been kicked!")).log
                      (Event.closedConn kicked.1))
                  match broadcast sendOk
                      ("[SERVER] " ++ targetName ++ " was kicked by " ++
                        nickname) none st2 with
                  | (st3, some _) => (teardown client st3, LoopAction.stop)
                  | (st3, none) => (st3, LoopAction.next)
                else
                  (teardown client (st.log (Event.sendFailed kicked.1
                    "[SERVER] You have been kicked!")), LoopAction.stop)
          else if command = "/quit" then
            if sendOk client then
              (remove_client client
                ((st.log (Event.sent client "QUIT")).log
                  (Event.closedConn client)), LoopAction.stop)
            else
              (teardown client (st.log (Event.sendFailed client "QUIT")),
               LoopAction.stop)
          else (st, LoopAction.next)
      else
        match broadcast sendOk (nickname ++ ": " ++ msg) (some client) st with
        | (st1, some _) => (teardown client st1, LoopAction.stop)
        | (st1, none) => (st1, LoopAction.next)

/-- One iteration of the accept loop of `start_server`, given the accepted
socket id and the nickname line that the client eventually sends in reply to
`NICK`.  Mirrors the source order exactly: accept, `client.send("NICK")`,
the blocking `client.recv(1024)` for the nickname, the registration
`clients[client] = nickname`, the join-notice `broadcast` with no excluded
sender, `client.send("[SERVER] Connected to server.")`, and only then the
spawn of the handler thread.  There is no `try` in `start_server`, so a
raising send or a `RuntimeError` escaping the join broadcast propagates. -/
def start_server_iter (sendOk : Nat → Bool) (client : Nat) (nickname : String)
    (st : ServerState) : ServerState × Option PyErr :=
  let st0 := st.log (Event.accepted client)
  if sendOk client then
    let st1 := (st0.log (Event.sent client "NICK")).log
      (Event.recvNick client nickname)
    let st2 : ServerState :=
      { clients := setNick client nickname st1.clients,
        events := st1.events ++ [Event.registered client nickname] }
    match broadcast sendOk ("[SERVER] " ++ nickname ++ " joined the chat!")
        none st2 with
    | (st3, some e) => (st3, some e)
    | (st3, none) =>
      if sendOk client then
        ((st3.log (Event.sent client "[SERVER] Connected to server.")).log
          (Event.spawnedHandler client), none)
      else
        (st3.log (Event.sendFailed client "[SERVER] Connected to server."),
         some PyErr.sendError)
  else
    (st0.log (Event.sendFailed client "NICK"), some PyErr.sendError)

/-- The sub-list of broadcast targets: the keys of the registry snapshot
with the excluded sender dropped. -/
def others (sender : Option Nat) (l : List Nat) : List Nat :=
  l.filter (fun c => decide (¬ sender = some c))

theorem others_none (l : List Nat) : others none l = l := by
  simp [others]

theorem others_some (s : Nat) (l : List Nat) :
    others (some s) l = l.filter (fun c => decide (¬ c = s)) := by
  induction l with
  | nil => rfl
  | cons c rest ih =>
    by_cases h : c = s
    · subst h; simp [others] at ih ⊢; exact ih
    · simp [others, h, Ne.symm h] at ih ⊢; exact ih

theorem not_mem_others_self (s : Nat) (l : List Nat) :
    s ∉ others (some s) l := by
  rw [others_some]
  intro hmem
  have := List.of_mem_filter hmem
  simp at this

/-- When every send in the remaining key list succeeds, the broadcast loop
delivers the message to exactly the non-excluded keys, in order, changes no
registry state, and raises nothing. -/
theorem broadcastFrom_all_ok (sendOk : Nat → Bool) (message : String)
    (sender : Option Nat) :
    ∀ (l : List Nat) (st : ServerState), (∀ c ∈ l, sendOk c = true) →
      broadcastFrom sendOk message sender l st =
        ({ clients := st.clients,
           events := st.events ++
             (others sender l).map (fun c => Event.sent c message) },
         none) := by
  intro l
  induction l with
  | nil => intro st h; simp [broadcastFrom, others]
  | cons c rest ih =>
    intro st h
    by_cases hs : sender = some c
    · rw [broadcastFrom, if_pos hs,
        ih st (fun x hx => h x (List.mem_cons_of_mem _ hx))]
      simp [others, hs]
    · have hc : sendOk c = true := h c (List.mem_cons_self _ _)
      rw [broadcastFrom, if_neg hs]
      simp only [hc, if_true]
      rw [ih (st.log (Event.sent c message))
        (fun x hx => h x (List.mem_cons_of_mem _ hx))]
      simp [ServerState.log, others, hs]

/-- Behavior of `broadcast` under universally succeeding sends: message delivered to
every registered connection except the excluded one, registry untouched,
no error. -/
theorem broadcast_all_ok (sendOk : Nat → Bool) (message : String)
    (sender : Option Nat) (st : ServerState)
    (h : ∀ c ∈ st.clients.map (fun p => p.1), sendOk c = true) :
    broadcast sendOk message sender st =
      ({ clients := st.clients,
         events := st.events ++
           (others sender (st.clients.map (fun p => p.1))).map
             (fun c => Event.sent c message) }, none) :=
  broadcastFrom_all_ok sendOk message sender _ st h

/-- The broadcast loop only ever appends to the event trace. -/
theorem broadcastFrom_events_extend (sendOk : Nat → Bool) (message : String)
    (sender : Option Nat) :
    ∀ (l : List Nat) (st : ServerState),
      ∃ t, ((broadcastFrom sendOk message sender l st).1).events =
        st.events ++ t := by
  intro l
  induction l with
  | nil => intro st; exact ⟨[], by simp [broadcastFrom]⟩
  | cons c rest ih =>
    intro st
    by_cases hs : sender = some c
    · obtain ⟨t, ht⟩ := ih st
      exact ⟨t, by rw [broadcastFrom, if_pos hs]; exact ht⟩
    · by_cases hc : sendOk c = true
      · obtain ⟨t, ht⟩ := ih (st.log (Event.sent c message))
        refine ⟨Event.sent c message :: t, ?_⟩
        rw [broadcastFrom, if_neg hs]
        simp only [hc, if_true]
        rw [ht]
        simp [ServerState.log]
      · refine ⟨[Event.sendFailed c message, Event.closedConn c,
          Event.removed c], ?_⟩
        rw [broadcastFrom, if_neg hs]
        simp only [hc, Bool.false_eq_true, if_false]
        simp [remove_client, ServerState.log]

/-- The freshly assigned key is among the keys after `setNick`. -/
theorem mem_setNick_keys (c : Nat) (n : String) (reg : List (Nat × String)) :
    c ∈ (setNick c n reg).map (fun p => p.1) := by
  unfold setNick
  by_cases h : reg.any (fun p => decide (p.1 = c)) = true
  · simp only [h, if_true]
    obtain ⟨p, hp, hpc⟩ := List.any_eq_true.mp h
    refine List.mem_map.mpr ⟨(c, n), List.mem_map.mpr ⟨p, hp, ?_⟩, rfl⟩
    simp at hpc
    simp [hpc]
  · simp only [h, Bool.false_eq_true, if_false]
    simp

/-- Closed form of one accept-loop iteration when every send (to the new
client and to every registered one) succeeds: the handshake runs start to
finish in source order — accept, `NICK` prompt, blocking nickname read,
registration, join notice broadcast over the registry that already contains
the new client, welcome acknowledgment, and only then the handler spawn. -/
theorem start_server_iter_all_ok (sendOk : Nat → Bool) (c : Nat) (n : String)
    (st : ServerState)
    (hok : ∀ x ∈ (setNick c n st.clients).map (fun p => p.1),
      sendOk x = true) :
    start_server_iter sendOk c n st =
      ({ clients := setNick c n st.clients,
         events := st.events ++
           [Event.accepted c, Event.sent c "NICK", Event.recvNick c n,
            Event.registered c n] ++
           ((setNick c n st.clients).map (fun p => p.1)).map
             (fun x => Event.sent x
               ("[SERVER] " ++ n ++ " joined the chat!")) ++
           [Event.sent c "[SERVER] Connected to server.",
            Event.spawnedHandler c] }, none) := by
  have hc : sendOk c = true := hok c (mem_setNick_keys c n st.clients)
  unfold start_server_iter
  simp only [hc, if_true, ServerState.log]
  rw [broadcast_all_ok sendOk ("[SERVER] " ++ n ++ " joined the chat!") none
    _ (by simpa using hok)]
  simp [others_none, ServerState.log]

/-- A successful `clients[c]` lookup means `c` is among the registry keys. -/
theorem lookupNick_mem_keys {st : ServerState} {c : Nat} {n : String}
    (h : lookupNick st c = some n) : c ∈ st.clients.map (fun p => p.1) := by
  unfold lookupNick at h
  cases hf : st.clients.find? (fun q => decide (q.1 = c)) with
  | none => rw [hf] at h; simp at h
  | some p =>
    have hm := List.mem_of_find?_eq_some hf
    have hp := List.find?_some hf
    simp at hp
    exact List.mem_map.mpr ⟨p, hm, hp⟩

/-- C1 (code bug in `broadcast`): with registry `{0: "a", 1: "x",
2: "b"}` and the send to connection 1 failing, `broadcast("hello")` does
catch the failure, close 1 and unregister it — but `remove_client` deletes
a key of the dictionary being iterated, so the next iterator step raises
`RuntimeError`: connection 2, registered and not excluded, never receives
the message, contradicting the claim that delivery to the remaining
targets is not aborted. -/
theorem broadcast_send_failure_aborts_delivery :
    broadcast (fun c => decide (¬ c = 1)) "hello" none
        ⟨[(0, "a"), (1, "x"), (2, "b")], []⟩ =
      (⟨[(0, "a"), (2, "b")],
        [Event.sent 0 "hello", Event.sendFailed 1 "hello",
         Event.closedConn 1, Event.removed 1]⟩, some PyErr.runtimeError) ∧
    Event.sent 2 "hello" ∉
      ((broadcast (fun c => decide (¬ c = 1)) "hello" none
        ⟨[(0, "a"), (1, "x"), (2, "b")], []⟩).1).events := by
  decide

/-- C2 (code bug in `handle_client`): when `recv` returns the empty
string (EOF) for the registered session `0 ↦ "alice"`, the read loop just
breaks: the session stays in the registry, the socket is never closed and
no cleanup happens — contradicting the claim that an EOF read unregisters
the session and closes the connection. -/
theorem eof_leaves_session_registered :
    handle_client_step (fun _ => true) 0 "" ⟨[(0, "alice")], []⟩ =
      (⟨[(0, "alice")], []⟩, LoopAction.stop) ∧
    (0, "alice") ∈
      ((handle_client_step (fun _ => true) 0 ""
        ⟨[(0, "alice")], []⟩).1).clients ∧
    Event.closedConn 0 ∉
      ((handle_client_step (fun _ => true) 0 ""
        ⟨[(0, "alice")], []⟩).1).events := by
  decide

/-- C8: `remove_client` is idempotent on the registry — removing a
connection absent from the registry leaves the registry unchanged, and a
double removal yields the same registry as a single one. -/
theorem remove_client_idempotent (c : Nat) (st : ServerState) :
    (c ∉ st.clients.map (fun p => p.1) →
      (remove_client c st).clients = st.clients) ∧
    (remove_client c (remove_client c st)).clients =
      (remove_client c st).clients := by
  constructor
  · intro h
    unfold remove_client
    apply List.filter_eq_self.mpr
    intro p hp
    simp only [decide_eq_true_eq]
    intro hc
    exact h (List.mem_map.mpr ⟨p, hp, hc⟩)
  · unfold remove_client
    simp [List.filter_filter]

/-- Witness for `remove_client_idempotent` at connection 5 and registry
`{0: "alice"}`. -/
theorem remove_client_idempotent_witness :
    ((remove_client 5 ⟨[(0, "alice")], []⟩).clients = [(0, "alice")]) ∧
    ((remove_client 5 (remove_client 5 ⟨[(0, "alice")], []⟩)).clients =
      (remove_client 5 ⟨[(0, "alice")], []⟩).clients) := by
  have h := remove_client_idempotent 5 ⟨[(0, "alice")], []⟩
  exact ⟨h.1 (by decide), h.2⟩

/-- C10: for the exact line `"/kick"`, `target_name` is `None`, no
registry entry ever compares equal to it, so the requester alone is sent
`"[SERVER] User not found."`; the registry is unchanged, nothing is
broadcast and no connection is closed. -/
theorem kick_without_argument_replies_not_found (sendOk : Nat → Bool)
    (client : Nat) (st : ServerState) (nick : String)
    (hnick : lookupNick st client = some nick)
    (hok : sendOk client = true) :
    handle_client_step sendOk client "/kick" st =
      (st.log (Event.sent client "[SERVER] User not found."),
       LoopAction.next) := by
  unfold handle_client_step
  rw [hnick]
  simp only [show splitOnce "/kick" = ("/kick", none) from by decide]
  simp +decide [hok]

/-- Witness for `kick_without_argument_replies_not_found` with requester 0
("alice") and another session 1 ("bob"). -/
theorem kick_without_argument_replies_not_found_witness :
    handle_client_step (fun _ => true) 0 "/kick"
        ⟨[(0, "alice"), (1, "bob")], []⟩ =
      (⟨[(0, "alice"), (1, "bob")],
        [Event.sent 0 "[SERVER] User not found."]⟩, LoopAction.next) :=
  kick_without_argument_replies_not_found (fun _ => true) 0
    ⟨[(0, "alice"), (1, "bob")], []⟩ "alice" (by decide) rfl

/-- C6 (counterexample): the line `"/rename "` — `/rename` followed
only by whitespace, so with an empty trimmed remainder — does NOT produce a
usage error: `"/rename ".split(" ", 1)` has two parts, so the server
broadcasts a rename notice and renames the requester to the empty string. -/
theorem rename_whitespace_renames_to_empty :
    handle_client_step (fun _ => true) 0 "/rename " ⟨[(0, "alice")], []⟩ =
      (⟨[(0, "")],
        [Event.sent 0 "[SERVER] alice renamed to ", Event.renamed 0 "",
         Event.sent 0 "[SERVER] You are now "]⟩, LoopAction.next) ∧
    Event.sent 0 "[SERVER] Usage: /rename new_name" ∉
      ((handle_client_step (fun _ => true) 0 "/rename "
        ⟨[(0, "alice")], []⟩).1).events ∧
    lookupNick ((handle_client_step (fun _ => true) 0 "/rename "
      ⟨[(0, "alice")], []⟩).1) 0 = some "" := by
  decide

/-- C6 (amended): the usage error is sent to the requester only, with
the registry untouched, exactly when the `/rename` line contains no space
at all (so `split(" ", 1)` yields no second part). -/
theorem rename_no_space_usage_error (sendOk : Nat → Bool) (client : Nat)
    (st : ServerState) (nick msg : String)
    (hnick : lookupNick st client = some nick)
    (hne : ¬ msg = "")
    (hpre : startsWithChar msg '/' = true)
    (hsplit : splitOnce msg = ("/rename", none))
    (hok : sendOk client = true) :
    handle_client_step sendOk client msg st =
      (st.log (Event.sent client "[SERVER] Usage: /rename new_name"),
       LoopAction.next) := by
  unfold handle_client_step
  rw [hnick]
  simp only [hsplit]
  simp +decide [hne, hpre, hok]

/-- Witness for `rename_no_space_usage_error` at the exact line
`"/rename"`. -/
theorem rename_no_space_usage_error_witness :
    handle_client_step (fun _ => true) 0 "/rename" ⟨[(0, "alice")], []⟩ =
      (⟨[(0, "alice")], [Event.sent 0 "[SERVER] Usage: /rename new_name"]⟩,
       LoopAction.next) :=
  rename_no_space_usage_error (fun _ => true) 0 ⟨[(0, "alice")], []⟩ "alice"
    "/rename" (by decide) (by decide) (by decide) (by decide) rfl

/-- C3: a non-`/` line from a registered client, with every send
succeeding, is broadcast as `"<nickname>: <text>"` to exactly the other
registered connections in registry order; the sender is excluded and never
appears among the recipients of its own chat message. -/
theorem chat_line_broadcast_excludes_sender (sendOk : Nat → Bool)
    (client : Nat) (st : ServerState) (nick msg : String)
    (hnick : lookupNick st client = some nick)
    (hne : ¬ msg = "")
    (hslash : startsWithChar msg '/' = false)
    (hok : ∀ c ∈ st.clients.map (fun p => p.1), sendOk c = true) :
    handle_client_step sendOk client msg st =
      ({ clients := st.clients,
         events := st.events ++
           (others (some client) (st.clients.map (fun p => p.1))).map
             (fun c => Event.sent c (nick ++ ": " ++ msg)) },
       LoopAction.next) ∧
    ∀ m : String, Event.sent client m ∉
      (others (some client) (st.clients.map (fun p => p.1))).map
        (fun c => Event.sent c (nick ++ ": " ++ msg)) := by
  have hb := broadcast_all_ok sendOk (nick ++ ": " ++ msg) (some client) st hok
  constructor
  · unfold handle_client_step
    rw [hnick]
    simp [hne, hslash, hb]
  · intro m hm
    obtain ⟨c, hc, he⟩ := List.mem_map.mp hm
    injection he with h1 h2
    rw [h1] at hc
    exact not_mem_others_self client _ hc

/-- Witness for `chat_line_broadcast_excludes_sender`: "alice" (connection
0) sends "hi" in a room with "bob" (1) and "eve" (2). -/
theorem chat_line_broadcast_excludes_sender_witness :
    handle_client_step (fun _ => true) 0 "hi"
        ⟨[(0, "alice"), (1, "bob"), (2, "eve")], []⟩ =
      (⟨[(0, "alice"), (1, "bob"), (2, "eve")],
        [Event.sent 1 "alice: hi", Event.sent 2 "alice: hi"]⟩,
       LoopAction.next) :=
  (chat_line_broadcast_excludes_sender (fun _ => true) 0
    ⟨[(0, "alice"), (1, "bob"), (2, "eve")], []⟩ "alice" "hi"
    (by decide) (by decide) (by decide) (by decide)).1

/-- C4: a `/rename` with a (non-empty trimmed) argument first
broadcasts the rename notice to every registered connection — the
requester included — then updates the requester's registry nickname to the
trimmed name, then confirms to the requester only, in exactly that order
(the event trace lists them in sequence). -/
theorem rename_notice_then_update_then_confirm (sendOk : Nat → Bool)
    (client : Nat) (st : ServerState) (nick msg rest : String)
    (hnick : lookupNick st client = some nick)
    (hne : ¬ msg = "")
    (hpre : startsWithChar msg '/' = true)
    (hsplit : splitOnce msg = ("/rename", some rest))
    (_hnn : ¬ pyStrip rest = "")
    (hok : ∀ c ∈ st.clients.map (fun p => p.1), sendOk c = true) :
    handle_client_step sendOk client msg st =
      ({ clients := setNick client (pyStrip rest) st.clients,
         events := st.events ++
           (st.clients.map (fun p => p.1)).map
             (fun c => Event.sent c
               ("[SERVER] " ++ nick ++ " renamed to " ++ pyStrip rest)) ++
           [Event.renamed client (pyStrip rest),
            Event.sent client ("[SERVER] You are now " ++ pyStrip rest)] },
       LoopAction.next) ∧
    Event.sent client ("[SERVER] " ++ nick ++ " renamed to " ++ pyStrip rest) ∈
      (st.clients.map (fun p => p.1)).map
        (fun c => Event.sent c
          ("[SERVER] " ++ nick ++ " renamed to " ++ pyStrip rest)) := by
  have hc : sendOk client = true := hok client (lookupNick_mem_keys hnick)
  have hb := broadcast_all_ok sendOk
    ("[SERVER] " ++ nick ++ " renamed to " ++ pyStrip rest) none st hok
  constructor
  · unfold handle_client_step
    rw [hnick]
    simp only [hsplit]
    simp +decide [hne, hpre, hb, others_none, ServerState.log, hc,
      List.append_assoc]
  · exact List.mem_map.mpr ⟨client, lookupNick_mem_keys hnick, rfl⟩

/-- Witness for `rename_notice_then_update_then_confirm`: "alice"
(connection 0) sends `/rename carol` in a room with "bob" (1). -/
theorem rename_notice_then_update_then_confirm_witness :
    handle_client_step (fun _ => true) 0 "/rename carol"
        ⟨[(0, "alice"), (1, "bob")], []⟩ =
      (⟨[(0, "carol"), (1, "bob")],
        [Event.sent 0 "[SERVER] alice renamed to carol",
         Event.sent 1 "[SERVER] alice renamed to carol",
         Event.renamed 0 "carol",
         Event.sent 0 "[SERVER] You are now carol"]⟩, LoopAction.next) ∧
    Event.sent 0 "[SERVER] alice renamed to carol" ∈
      [Event.sent 0 "[SERVER] alice renamed to carol",
       Event.sent 1 "[SERVER] alice renamed to carol"] :=
  rename_notice_then_update_then_confirm (fun _ => true) 0
    ⟨[(0, "alice"), (1, "bob")], []⟩ "alice" "/rename carol" "carol"
    (by decide) (by decide) (by decide) (by decide) (by decide) (by decide)

/-- C5: for a `/kick <name>` line: when the linear scan of the registry
finds a first entry with the target nickname, that connection is sent the
kick notice, closed, unregistered, and then the kick broadcast goes out to
the room that remains — in that order; when no entry matches, the requester
alone gets `"[SERVER] User not found."` and the registry is unchanged. -/
theorem kick_dispatch (sendOk : Nat → Bool) (client : Nat)
    (st : ServerState) (nick msg rest : String)
    (hnick : lookupNick st client = some nick)
    (hne : ¬ msg = "")
    (hpre : startsWithChar msg '/' = true)
    (hsplit : splitOnce msg = ("/kick", some rest))
    (hok : ∀ c ∈ st.clients.map (fun p => p.1), sendOk c = true) :
    (∀ ks knick,
      st.clients.find? (fun p => decide (p.2 = pyStrip rest)) =
          some (ks, knick) →
      handle_client_step sendOk client msg st =
        ({ clients := st.clients.filter (fun p => decide (p.1 ≠ ks)),
           events := st.events ++
             [Event.sent ks "[SERVER] You have been kicked!",
              Event.closedConn ks, Event.removed ks] ++
             ((st.clients.filter (fun p => decide (p.1 ≠ ks))).map
               (fun p => p.1)).map
               (fun c => Event.sent c
                 ("[SERVER] " ++ pyStrip rest ++ " was kicked by " ++
                   nick)) },
         LoopAction.next)) ∧
    (st.clients.find? (fun p => decide (p.2 = pyStrip rest)) = none →
      handle_client_step sendOk client msg st =
        (st.log (Event.sent client "[SERVER] User not found."),
         LoopAction.next)) := by
  have hc : sendOk client = true := hok client (lookupNick_mem_keys hnick)
  constructor
  · intro ks knick hfind
    have hks : sendOk ks = true := hok ks (List.mem_map.mpr
      ⟨(ks, knick), List.mem_of_find?_eq_some hfind, rfl⟩)
    have hok2 : ∀ c ∈ (st.clients.filter
        (fun p => decide (p.1 ≠ ks))).map (fun p => p.1),
        sendOk c = true := by
      intro c hcm
      obtain ⟨p, hp, hpc⟩ := List.mem_map.mp hcm
      exact hok c (List.mem_map.mpr ⟨p, List.mem_of_mem_filter hp, hpc⟩)
    have hb := broadcast_all_ok sendOk
      ("[SERVER] " ++ pyStrip rest ++ " was kicked by " ++ nick) none
      (remove_client ks
        ((st.log (Event.sent ks "[SERVER] You have been kicked!")).log
          (Event.closedConn ks)))
      (by simpa [remove_client, ServerState.log] using hok2)
    simp +decide [remove_client, ServerState.log, others_none,
      List.append_assoc] at hb
    unfold handle_client_step
    rw [hnick]
    simp only [hsplit]
    simp +decide [hne, hpre, hfind, hks, hb, ServerState.log,
      remove_client, List.append_assoc]
  · intro hfind
    unfold handle_client_step
    rw [hnick]
    simp only [hsplit]
    simp +decide [hne, hpre, hfind, hc, ServerState.log]

/-- Witness for `kick_dispatch` (found branch): "alice" (connection 0)
kicks "bob" (connection 1). -/
theorem kick_dispatch_witness :
    handle_client_step (fun _ => true) 0 "/kick bob"
        ⟨[(0, "alice"), (1, "bob")], []⟩ =
      (⟨[(0, "alice")],
        [Event.sent 1 "[SERVER] You have been kicked!",
         Event.closedConn 1, Event.removed 1,
         Event.sent 0 "[SERVER] bob was kicked by alice"]⟩,
       LoopAction.next) :=
  (kick_dispatch (fun _ => true) 0 ⟨[(0, "alice"), (1, "bob")], []⟩
    "alice" "/kick bob" "bob" (by decide) (by decide) (by decide)
    (by decide) (by decide)).1 1 "bob" (by decide)

/-- C7 (counterexample): the join notice after the handshake of
connection 1 ("bob") with connection 0 ("alice") already present is
broadcast with no excluded sender over a registry that already contains the
new client, so the newly joined client itself receives its own join
notice — the claim says it must not. -/
theorem join_notice_sent_to_new_client :
    Event.sent 1 "[SERVER] bob joined the chat!" ∈
      ((start_server_iter (fun _ => true) 1 "bob"
        ⟨[(0, "alice")], []⟩).1).events := by
  decide

/-- C7 (amended): after registration the join notice is broadcast to
every registered connection *including* the newly joined client, which
therefore receives its own join notice, followed by the welcome
acknowledgment and only then the handler spawn. -/
theorem handshake_join_notice_to_all (sendOk : Nat → Bool) (client : Nat)
    (n : String) (st : ServerState)
    (hok : ∀ x ∈ (setNick client n st.clients).map (fun p => p.1),
      sendOk x = true) :
    start_server_iter sendOk client n st =
      ({ clients := setNick client n st.clients,
         events := st.events ++
           [Event.accepted client, Event.sent client "NICK",
            Event.recvNick client n, Event.registered client n] ++
           ((setNick client n st.clients).map (fun p => p.1)).map
             (fun x => Event.sent x
               ("[SERVER] " ++ n ++ " joined the chat!")) ++
           [Event.sent client "[SERVER] Connected to server.",
            Event.spawnedHandler client] }, none) ∧
    Event.sent client ("[SERVER] " ++ n ++ " joined the chat!") ∈
      ((setNick client n st.clients).map (fun p => p.1)).map
        (fun x => Event.sent x ("[SERVER] " ++ n ++ " joined the chat!")) :=
  ⟨start_server_iter_all_ok sendOk client n st hok,
   List.mem_map.mpr ⟨client, mem_setNick_keys client n st.clients, rfl⟩⟩

/-- Witness for `handshake_join_notice_to_all`: "bob" (connection 1) joins
a room holding "alice" (connection 0). -/
theorem handshake_join_notice_to_all_witness :
    start_server_iter (fun _ => true) 1 "bob" ⟨[(0, "alice")], []⟩ =
      (⟨[(0, "alice"), (1, "bob")],
        [Event.accepted 1, Event.sent 1 "NICK", Event.recvNick 1 "bob",
         Event.registered 1 "bob",
         Event.sent 0 "[SERVER] bob joined the chat!",
         Event.sent 1 "[SERVER] bob joined the chat!",
         Event.sent 1 "[SERVER] Connected to server.",
         Event.spawnedHandler 1]⟩, none) ∧
    Event.sent 1 "[SERVER] bob joined the chat!" ∈
      [Event.sent 0 "[SERVER] bob joined the chat!",
       Event.sent 1 "[SERVER] bob joined the chat!"] :=
  handshake_join_notice_to_all (fun _ => true) 1 "bob" ⟨[(0, "alice")], []⟩
    (by decide)

/-- Two back-to-back iterations of the accept loop with every send
succeeding. -/
def twoAcceptRun : ServerState :=
  (start_server_iter (fun _ => true) 2 "eve"
    ((start_server_iter (fun _ => true) 1 "bob" ⟨[], []⟩).1)).1

/-- C9 (counterexample): in two consecutive accept-loop iterations the
blocking nickname read of the first client (`recvNick 1`) happens strictly
before the first client's handler is spawned and strictly before the
second client is accepted — so the accept loop does block on the nickname
handshake reply of a previously accepted client, contrary to the claim. -/
theorem accept_loop_blocks_on_nickname_read :
    Event.recvNick 1 "bob" ∈ twoAcceptRun.events ∧
    Event.spawnedHandler 1 ∈ twoAcceptRun.events ∧
    Event.accepted 2 ∈ twoAcceptRun.events ∧
    twoAcceptRun.events.indexOf (Event.recvNick 1 "bob") <
      twoAcceptRun.events.indexOf (Event.spawnedHandler 1) ∧
    twoAcceptRun.events.indexOf (Event.recvNick 1 "bob") <
      twoAcceptRun.events.indexOf (Event.accepted 2) := by
  decide

/-- C9 (amended): the accept loop performs the whole nickname
handshake synchronously: the blocking nickname read of an accepted client
precedes both the spawn of its handler and the acceptance of the next
client in the event trace. -/
theorem nickname_read_precedes_spawn_and_next_accept (sendOk : Nat → Bool)
    (c₁ c₂ : Nat) (n₁ n₂ : String) (st : ServerState)
    (hok₁ : ∀ x ∈ (setNick c₁ n₁ st.clients).map (fun p => p.1),
      sendOk x = true)
    (hok₂ : ∀ x ∈ (setNick c₂ n₂ (setNick c₁ n₁ st.clients)).map
      (fun p => p.1), sendOk x = true) :
    ∃ l₁ l₂ l₃,
      ((start_server_iter sendOk c₂ n₂
        ((start_server_iter sendOk c₁ n₁ st).1)).1).events =
        l₁ ++ Event.recvNick c₁ n₁ :: (l₂ ++ Event.accepted c₂ :: l₃) ∧
      Event.spawnedHandler c₁ ∈ l₂ := by
  rw [start_server_iter_all_ok sendOk c₁ n₁ st hok₁]
  rw [start_server_iter_all_ok sendOk c₂ n₂ _ hok₂]
  refine ⟨st.events ++ [Event.accepted c₁, Event.sent c₁ "NICK"],
    Event.registered c₁ n₁ ::
      (((setNick c₁ n₁ st.clients).map (fun p => p.1)).map
        (fun x => Event.sent x ("[SERVER] " ++ n₁ ++ " joined the chat!")) ++
       [Event.sent c₁ "[SERVER] Connected to server.",
        Event.spawnedHandler c₁]),
    [Event.sent c₂ "NICK", Event.recvNick c₂ n₂,
     Event.registered c₂ n₂] ++
      ((setNick c₂ n₂ (setNick c₁ n₁ st.clients)).map (fun p => p.1)).map
        (fun x => Event.sent x ("[SERVER] " ++ n₂ ++ " joined the chat!")) ++
      [Event.sent c₂ "[SERVER] Connected to server.",
       Event.spawnedHandler c₂], ?_, ?_⟩
  · simp [List.append_assoc]
  · simp

/-- Witness for `nickname_read_precedes_spawn_and_next_accept`: "bob"
(connection 1) then "eve" (connection 2) joining an empty room. -/
theorem nickname_read_precedes_spawn_and_next_accept_witness :
    ∃ l₁ l₂ l₃,
      ((start_server_iter (fun _ => true) 2 "eve"
        ((start_server_iter (fun _ => true) 1 "bob" ⟨[], []⟩).1)).1).events =
        l₁ ++ Event.recvNick 1 "bob" :: (l₂ ++ Event.accepted 2 :: l₃) ∧
      Event.spawnedHandler 1 ∈ l₂ :=
  nickname_read_precedes_spawn_and_next_accept (fun _ => true) 1 2 "bob"
    "eve" ⟨[], []⟩ (by decide) (by decide)

end Chat
